import Mathlib

/-!
Verification development for the roommate-matching subsystem of the
roomierush backend.

The model below is a shallow embedding of the Express route handlers in
`src/routes/matches.js` and `src/routes/roomieMatches.js` together with the
`authorizeUser` middleware from `src/middleware/authMiddleware.js`.  The
MySQL tables `matches`, `passes`, `roomie_matches` and `users` are modelled
as lists of rows in insertion order; `createdAt` timestamps and display-only
columns are omitted because no verified property mentions them.  Numeric
columns (`age`, `minBudget`, `maxBudget`) are modelled as integers.
JavaScript falsiness of a missing/empty uid in a request body is modelled
by equality with the empty string.
-/

/-- A row of the `matches` table: `(userId, matchedUserId, isMatch)`.
The tinyint column `isMatch` (written 0/1 in SQL) is modelled as `Bool`. -/
structure MatchRow where
  userId : String
  matchedUserId : String
  isMatch : Bool
deriving DecidableEq, Repr

/-- A row of the `passes` table: `(userId, passedUid)`. -/
structure PassRow where
  userId : String
  passedUid : String
deriving DecidableEq, Repr

/-- The interest ledger: the `matches` and `passes` tables. -/
structure LedgerState where
  matchRows : List MatchRow
  passes : List PassRow
deriving DecidableEq, Repr

/-- The ledger with both tables empty. -/
def emptyLedger : LedgerState := ⟨[], []⟩

/-- Error responses produced by the handlers, tagged with the constructor
matching their `res.status(...)` code in the source. -/
inductive ApiError where
  /-- `res.status(400)` for a missing/falsy required body field. -/
  | missingFields
  /-- `res.status(400).json(error Cannot like yourself)`. -/
  | selfLike
  /-- `res.status(404)`. -/
  | notFound
  /-- `res.status(403)` from the `authorizeUser` middleware. -/
  | forbidden
deriving DecidableEq, Repr

/-- The HTTP status code attached to each error in the source. -/
def ApiError.status : ApiError → Nat
  | .missingFields => 400
  | .selfLike => 400
  | .notFound => 404
  | .forbidden => 403

/-- The spec's InvalidArgument class is the 400 family of responses. -/
def isInvalidArgument (e : ApiError) : Bool := e.status == 400

/-- `SELECT * FROM matches WHERE userId = u AND matchedUserId = m`. -/
def selectMatches (s : LedgerState) (u m : String) : List MatchRow :=
  s.matchRows.filter (fun r => r.userId == u && r.matchedUserId == m)

/-- The row transformation of
`UPDATE matches SET isMatch = 1 WHERE userId = likedUid AND matchedUserId = likerUid`. -/
def flipReverse (likedUid likerUid : String) (r : MatchRow) : MatchRow :=
  if r.userId == likedUid && r.matchedUserId == likerUid then
    { r with isMatch := true }
  else r

/-- POST `/matches/like` (src/routes/matches.js lines 8-113), database effects
and response payload only.  In order: reject falsy uids, reject self-like,
return the stored flag if the row already exists, otherwise read the reverse
row, insert the new row, and if the reverse row existed flip it to mutual.
The fire-and-forget notification block touches only the `users` table and is
omitted. -/
def recordLike (likerUid likedUid : String) (s : LedgerState) :
    Except ApiError (Bool × LedgerState) :=
  if likerUid == "" || likedUid == "" then .error .missingFields
  else if likerUid == likedUid then .error .selfLike
  else
    match selectMatches s likerUid likedUid with
    | r :: _ => .ok (r.isMatch, s)
    | [] =>
      let isMatch := !(selectMatches s likedUid likerUid).isEmpty
      let afterInsert : LedgerState :=
        { s with matchRows := s.matchRows ++ [⟨likerUid, likedUid, isMatch⟩] }
      if isMatch then
        .ok (true, { afterInsert with
          matchRows := afterInsert.matchRows.map (flipReverse likedUid likerUid) })
      else
        .ok (false, afterInsert)

/-- POST `/matches/pass` (src/routes/matches.js lines 116-158): reject falsy
uids, succeed without writing if the pass row already exists, else insert. -/
def recordPass (userId passedUid : String) (s : LedgerState) :
    Except ApiError LedgerState :=
  if userId == "" || passedUid == "" then .error .missingFields
  else
    match s.passes.filter (fun r => r.userId == userId && r.passedUid == passedUid) with
    | _ :: _ => .ok s
    | [] => .ok { s with passes := s.passes ++ [⟨userId, passedUid⟩] }

/-- DELETE `/matches/unmatch` (src/routes/matches.js lines 256-287): delete
both directional rows of the pair unconditionally. -/
def unmatch (userId matchedUserId : String) (s : LedgerState) :
    Except ApiError LedgerState :=
  if userId == "" || matchedUserId == "" then .error .missingFields
  else .ok { s with matchRows := s.matchRows.filter (fun r =>
      !((r.userId == userId && r.matchedUserId == matchedUserId) ||
        (r.userId == matchedUserId && r.matchedUserId == userId))) }

/-- DELETE `/matches/reset` (src/routes/matches.js lines 290-330): delete all
match rows with the user on either side and all pass rows the user authored;
return the two affected-row counts. -/
def resetAll (userId : String) (s : LedgerState) :
    Except ApiError (Nat × Nat × LedgerState) :=
  if userId == "" then .error .missingFields
  else
    let deletedM := s.matchRows.filter (fun r =>
      r.userId == userId || r.matchedUserId == userId)
    let keptM := s.matchRows.filter (fun r =>
      !(r.userId == userId || r.matchedUserId == userId))
    let deletedP := s.passes.filter (fun r => r.userId == userId)
    let keptP := s.passes.filter (fun r => !(r.userId == userId))
    .ok (deletedM.length, deletedP.length, { matchRows := keptM, passes := keptP })

/-- GET `/matches/check` (src/routes/matches.js lines 220-253): true iff a
row with `isMatch = 1` exists in each direction. -/
def checkMatch (userId1 userId2 : String) (s : LedgerState) :
    Except ApiError Bool :=
  if userId1 == "" || userId2 == "" then .error .missingFields
  else
    let m1 := s.matchRows.filter (fun r =>
      r.userId == userId1 && r.matchedUserId == userId2 && r.isMatch)
    let m2 := s.matchRows.filter (fun r =>
      r.userId == userId2 && r.matchedUserId == userId1 && r.isMatch)
    .ok (!m1.isEmpty && !m2.isEmpty)

/-- One ledger-mutating request. -/
inductive LedgerOp where
  | like (likerUid likedUid : String)
  | pass (userId passedUid : String)
  | unmatchOp (userId matchedUserId : String)
  | reset (userId : String)

/-- The ledger after one request; a rejected request leaves it unchanged. -/
def applyOp (op : LedgerOp) (s : LedgerState) : LedgerState :=
  match op with
  | .like a b => match recordLike a b s with
    | .ok (_, s') => s'
    | .error _ => s
  | .pass a b => match recordPass a b s with
    | .ok s' => s'
    | .error _ => s
  | .unmatchOp a b => match unmatch a b s with
    | .ok s' => s'
    | .error _ => s
  | .reset a => match resetAll a s with
    | .ok (_, _, s') => s'
    | .error _ => s

/-- The ledger after a sequence of requests, run left to right. -/
def runOps (ops : List LedgerOp) (s : LedgerState) : LedgerState :=
  match ops with
  | [] => s
  | op :: rest => runOps rest (applyOp op s)

/-- A ledger state reachable from the empty ledger by some request sequence. -/
def Reachable (s : LedgerState) : Prop :=
  ∃ ops : List LedgerOp, s = runOps ops emptyLedger

/-- The ordered-pair key predicate used by every `WHERE userId = x AND
matchedUserId = y` clause. -/
def keyPred (x y : String) (r : MatchRow) : Bool :=
  r.userId == x && r.matchedUserId == y

/-- At most one `matches` row per ordered pair of uids. -/
def UniqueKeys (l : List MatchRow) : Prop :=
  ∀ x y : String, (l.filter (keyPred x y)).length ≤ 1

/-- Any two opposite-direction rows carry equal `isMatch` flags. -/
def MutualConsistent (l : List MatchRow) : Prop :=
  ∀ r1 r2 : MatchRow, r1 ∈ l → r2 ∈ l →
    r2.userId = r1.matchedUserId → r2.matchedUserId = r1.userId →
    r1.isMatch = r2.isMatch

/-- The ledger invariant maintained by every route handler. -/
def ListInv (l : List MatchRow) : Prop := UniqueKeys l ∧ MutualConsistent l

/-- The ledger invariant, read off the `matches` table of a state. -/
def LedgerInv (s : LedgerState) : Prop := ListInv s.matchRows

theorem selectMatches_eq_filter (s : LedgerState) (u m : String) :
    selectMatches s u m = s.matchRows.filter (keyPred u m) := rfl

theorem flipReverse_userId (c d : String) (r : MatchRow) :
    (flipReverse c d r).userId = r.userId := by
  unfold flipReverse; split <;> rfl

theorem flipReverse_matchedUserId (c d : String) (r : MatchRow) :
    (flipReverse c d r).matchedUserId = r.matchedUserId := by
  unfold flipReverse; split <;> rfl

theorem flipReverse_of_key (c d : String) (r : MatchRow)
    (h1 : r.userId = c) (h2 : r.matchedUserId = d) :
    flipReverse c d r = { r with isMatch := true } := by
  unfold flipReverse
  rw [if_pos]
  simp [h1, h2]

theorem flipReverse_of_ne (c d : String) (r : MatchRow)
    (h : ¬(r.userId = c ∧ r.matchedUserId = d)) :
    flipReverse c d r = r := by
  unfold flipReverse
  rw [if_neg]
  simpa using h

/-- Filtering by an ordered-pair key commutes with the mutual-flag update,
because the update never changes the key columns. -/
theorem filter_key_map_flip (l : List MatchRow) (c d x y : String) :
    (l.map (flipReverse c d)).filter (keyPred x y) =
      (l.filter (keyPred x y)).map (flipReverse c d) := by
  rw [List.filter_map]
  have hp : (keyPred x y ∘ flipReverse c d) = keyPred x y := by
    funext r
    simp [Function.comp, keyPred, flipReverse_userId, flipReverse_matchedUserId]
  rw [hp]

theorem length_filter_append_single (l : List MatchRow) (row : MatchRow)
    (p : MatchRow → Bool) :
    ((l ++ [row]).filter p).length =
      (l.filter p).length + (if p row then 1 else 0) := by
  rw [List.filter_append]
  by_cases h : p row
  · simp [h]
  · simp [h]

theorem uniqueKeys_append (l : List MatchRow) (a b : String) (fl : Bool)
    (hU : UniqueKeys l) (hfwd : l.filter (keyPred a b) = []) :
    UniqueKeys (l ++ [⟨a, b, fl⟩]) := by
  intro x y
  rw [length_filter_append_single]
  by_cases hc : keyPred x y ⟨a, b, fl⟩
  · have hxy : a = x ∧ b = y := by simpa [keyPred] using hc
    rw [← hxy.1, ← hxy.2, hfwd]
    simp [keyPred]
  · have := hU x y
    simp [hc]
    omega

theorem mutualConsistent_append_nonmutual (l : List MatchRow) (a b : String)
    (hM : MutualConsistent l) (hrev : l.filter (keyPred b a) = []) :
    MutualConsistent (l ++ [⟨a, b, false⟩]) := by
  intro r1 r2 h1 h2 e1 e2
  rw [List.mem_append, List.mem_singleton] at h1 h2
  rcases h1 with h1 | rfl <;> rcases h2 with h2 | rfl
  · exact hM r1 r2 h1 h2 e1 e2
  · -- r2 is the new row, so r1 is keyed (b, a) and cannot exist
    exfalso
    have hmem : r1 ∈ l.filter (keyPred b a) := by
      rw [List.mem_filter]
      refine ⟨h1, ?_⟩
      simp only [MatchRow.matchedUserId] at e1
      simp only [MatchRow.userId] at e2
      simp [keyPred, ← e1, ← e2]
    rw [hrev] at hmem
    exact List.not_mem_nil r1 hmem
  · -- r1 is the new row, so r2 is keyed (b, a) and cannot exist
    exfalso
    have hmem : r2 ∈ l.filter (keyPred b a) := by
      rw [List.mem_filter]
      refine ⟨h2, ?_⟩
      simp only [MatchRow.matchedUserId, MatchRow.userId] at e1 e2
      simp [keyPred, e1, e2]
    rw [hrev] at hmem
    exact List.not_mem_nil r2 hmem
  · rfl

theorem mutualConsistent_mutual_insert (l : List MatchRow) (a b : String)
    (hM : MutualConsistent l) (hab : a ≠ b)
    (hfwd : l.filter (keyPred a b) = []) :
    MutualConsistent ((l ++ [MatchRow.mk a b true]).map (flipReverse b a)) := by
  have hnew : flipReverse b a (MatchRow.mk a b true) = MatchRow.mk a b true := by
    apply flipReverse_of_ne
    intro hk
    exact hab hk.1
  intro r1' r2' h1 h2 e1 e2
  rw [List.mem_map] at h1 h2
  obtain ⟨r1, hm1, rfl⟩ := h1
  obtain ⟨r2, hm2, rfl⟩ := h2
  rw [List.mem_append, List.mem_singleton] at hm1 hm2
  rw [flipReverse_userId, flipReverse_matchedUserId] at e1 e2
  have habs : ∀ r : MatchRow, r ∈ l → r.userId = a → r.matchedUserId = b → False := by
    intro r hr hu hm
    have hmem : r ∈ l.filter (keyPred a b) := by
      rw [List.mem_filter]
      exact ⟨hr, by simp [keyPred, hu, hm]⟩
    rw [hfwd] at hmem
    exact List.not_mem_nil r hmem
  rcases hm1 with hm1 | hr1 <;> rcases hm2 with hm2 | hr2
  · -- both rows are old rows
    by_cases hk1 : r1.userId = a ∧ r1.matchedUserId = b
    · exact (habs r1 hm1 hk1.1 hk1.2).elim
    by_cases hk2 : r2.userId = a ∧ r2.matchedUserId = b
    · exact (habs r2 hm2 hk2.1 hk2.2).elim
    -- neither key is (a, b), hence neither key is (b, a) either,
    -- so the flag update fixes both rows
    have hf1 : ¬(r1.userId = b ∧ r1.matchedUserId = a) := by
      intro hk
      exact hk2 ⟨by rw [e1, hk.2], by rw [e2, hk.1]⟩
    have hf2 : ¬(r2.userId = b ∧ r2.matchedUserId = a) := by
      intro hk
      exact hk1 ⟨by rw [← e2, hk.2], by rw [← e1, hk.1]⟩
    rw [flipReverse_of_ne b a r1 hf1, flipReverse_of_ne b a r2 hf2]
    exact hM r1 r2 hm1 hm2 e1 e2
  · -- r2 is the inserted row, so r1 is keyed (b, a) and gets flipped to true
    subst hr2
    have hu : r1.userId = b := by
      have h : (MatchRow.mk a b true).matchedUserId = r1.userId := e2
      exact h.symm
    have hm : r1.matchedUserId = a := by
      have h : (MatchRow.mk a b true).userId = r1.matchedUserId := e1
      exact h.symm
    rw [flipReverse_of_key b a r1 hu hm, hnew]
  · -- r1 is the inserted row, so r2 is keyed (b, a) and gets flipped to true
    subst hr1
    have hu : r2.userId = b := by
      have h : r2.userId = (MatchRow.mk a b true).matchedUserId := e1
      exact h
    have hm : r2.matchedUserId = a := by
      have h : r2.matchedUserId = (MatchRow.mk a b true).userId := e2
      exact h
    rw [flipReverse_of_key b a r2 hu hm, hnew]
  · subst hr1; subst hr2; rfl

theorem uniqueKeys_map_flip (l : List MatchRow) (c d : String)
    (hU : UniqueKeys l) : UniqueKeys (l.map (flipReverse c d)) := by
  intro x y
  rw [filter_key_map_flip, List.length_map]
  exact hU x y

theorem mem_of_mem_filter_rows (l : List MatchRow) (p : MatchRow → Bool)
    (r : MatchRow) (h : r ∈ l.filter p) : r ∈ l :=
  (List.mem_filter.mp h).1

theorem uniqueKeys_filter (l : List MatchRow) (p : MatchRow → Bool)
    (hU : UniqueKeys l) : UniqueKeys (l.filter p) := by
  intro x y
  calc ((l.filter p).filter (keyPred x y)).length
      ≤ (l.filter (keyPred x y)).length :=
        ((List.filter_sublist l).filter (keyPred x y)).length_le
    _ ≤ 1 := hU x y

theorem mutualConsistent_filter (l : List MatchRow) (p : MatchRow → Bool)
    (hM : MutualConsistent l) : MutualConsistent (l.filter p) := by
  intro r1 r2 h1 h2 e1 e2
  exact hM r1 r2 (mem_of_mem_filter_rows l p r1 h1)
    (mem_of_mem_filter_rows l p r2 h2) e1 e2

theorem listInv_filter (l : List MatchRow) (p : MatchRow → Bool)
    (h : ListInv l) : ListInv (l.filter p) :=
  ⟨uniqueKeys_filter l p h.1, mutualConsistent_filter l p h.2⟩

/-- The three possible database effects of a like request: no write, a
non-mutual insert, or an insert plus the reverse-row flag flip. -/
theorem applyOp_like_cases (a b : String) (s : LedgerState) :
    applyOp (.like a b) s = s ∨
    (a ≠ b ∧ selectMatches s a b = [] ∧ selectMatches s b a = [] ∧
      applyOp (.like a b) s =
        { s with matchRows := s.matchRows ++ [MatchRow.mk a b false] }) ∨
    (a ≠ b ∧ selectMatches s a b = [] ∧
      applyOp (.like a b) s = { s with matchRows :=
        (s.matchRows ++ [MatchRow.mk a b true]).map (flipReverse b a) }) := by
  by_cases hA : a = ""
  · left; simp [applyOp, recordLike, hA]
  by_cases hB : b = ""
  · left; simp [applyOp, recordLike, hA, hB]
  by_cases hab : a = b
  · left; simp [applyOp, recordLike, hA, hB, hab]
  cases hsel : selectMatches s a b with
  | cons r t =>
    left
    simp [applyOp, recordLike, hA, hB, hab, hsel]
  | nil =>
    cases hrev : selectMatches s b a with
    | nil =>
      right; left
      refine ⟨hab, rfl, rfl, ?_⟩
      simp [applyOp, recordLike, hA, hB, hab, hsel, hrev]
    | cons r t =>
      right; right
      refine ⟨hab, rfl, ?_⟩
      simp [applyOp, recordLike, hA, hB, hab, hsel, hrev]

/-- A pass request never touches the `matches` table. -/
theorem applyOp_pass_matchRows (a b : String) (s : LedgerState) :
    (applyOp (.pass a b) s).matchRows = s.matchRows := by
  by_cases hA : a = ""
  · simp [applyOp, recordPass, hA]
  by_cases hB : b = ""
  · simp [applyOp, recordPass, hA, hB]
  cases hsel : s.passes.filter (fun r => r.userId == a && r.passedUid == b) with
  | cons r t => simp [applyOp, recordPass, hA, hB, hsel]
  | nil => simp [applyOp, recordPass, hA, hB, hsel]

/-- An unmatch request either rejects or filters the `matches` table. -/
theorem applyOp_unmatch_cases (a b : String) (s : LedgerState) :
    (applyOp (.unmatchOp a b) s).matchRows = s.matchRows ∨
    (applyOp (.unmatchOp a b) s).matchRows = s.matchRows.filter (fun r =>
      !((r.userId == a && r.matchedUserId == b) ||
        (r.userId == b && r.matchedUserId == a))) := by
  by_cases hA : a = ""
  · left; simp [applyOp, unmatch, hA]
  by_cases hB : b = ""
  · left; simp [applyOp, unmatch, hA, hB]
  right; simp [applyOp, unmatch, hA, hB]

/-- A reset request either rejects or filters the `matches` table. -/
theorem applyOp_reset_cases (a : String) (s : LedgerState) :
    (applyOp (.reset a) s).matchRows = s.matchRows ∨
    (applyOp (.reset a) s).matchRows = s.matchRows.filter (fun r =>
      !(r.userId == a || r.matchedUserId == a)) := by
  by_cases hA : a = ""
  · left; simp [applyOp, resetAll, hA]
  right; simp [applyOp, resetAll, hA]

/-- Every single request preserves the ledger invariant. -/
theorem ledgerInv_applyOp (op : LedgerOp) (s : LedgerState)
    (h : LedgerInv s) : LedgerInv (applyOp op s) := by
  cases op with
  | like a b =>
    rcases applyOp_like_cases a b s with heq | ⟨hab, hfwd, hrev, heq⟩ | ⟨hab, hfwd, heq⟩
    · rw [heq]; exact h
    · rw [heq]
      rw [selectMatches_eq_filter] at hfwd hrev
      exact ⟨uniqueKeys_append s.matchRows a b false h.1 hfwd,
        mutualConsistent_append_nonmutual s.matchRows a b h.2 hrev⟩
    · rw [heq]
      rw [selectMatches_eq_filter] at hfwd
      refine ⟨uniqueKeys_map_flip _ b a ?_,
        mutualConsistent_mutual_insert s.matchRows a b h.2 hab hfwd⟩
      exact uniqueKeys_append s.matchRows a b true h.1 hfwd
  | pass a b =>
    show ListInv (applyOp (.pass a b) s).matchRows
    rw [applyOp_pass_matchRows]
    exact h
  | unmatchOp a b =>
    show ListInv (applyOp (.unmatchOp a b) s).matchRows
    rcases applyOp_unmatch_cases a b s with heq | heq <;> rw [heq]
    · exact h
    · exact listInv_filter s.matchRows _ h
  | reset a =>
    show ListInv (applyOp (.reset a) s).matchRows
    rcases applyOp_reset_cases a s with heq | heq <;> rw [heq]
    · exact h
    · exact listInv_filter s.matchRows _ h

theorem ledgerInv_runOps (ops : List LedgerOp) (s : LedgerState)
    (h : LedgerInv s) : LedgerInv (runOps ops s) := by
  induction ops generalizing s with
  | nil => exact h
  | cons op rest ih => exact ih (applyOp op s) (ledgerInv_applyOp op s h)

theorem ledgerInv_emptyLedger : LedgerInv emptyLedger := by
  constructor
  · intro x y
    simp [emptyLedger]
  · intro r1 r2 h1 _ _ _
    exact (List.not_mem_nil r1 h1).elim

/-- Every reachable ledger state satisfies the invariant. -/
theorem reachable_ledgerInv (s : LedgerState) (hs : Reachable s) :
    LedgerInv s := by
  obtain ⟨ops, rfl⟩ := hs
  exact ledgerInv_runOps ops emptyLedger ledgerInv_emptyLedger

/-- C1: for every pair of distinct uids A and B, in every state reachable
from the empty ledger through any sequence of like, pass, unmatch and reset
requests, whenever both directional rows Like(A→B) and Like(B→A) exist,
their mutual flags are equal. -/
theorem reachable_mutual_flags_agree (s : LedgerState) (A B : String)
    (hAB : A ≠ B) (hs : Reachable s) (r1 r2 : MatchRow)
    (h1 : r1 ∈ s.matchRows) (h2 : r2 ∈ s.matchRows)
    (k1u : r1.userId = A) (k1m : r1.matchedUserId = B)
    (k2u : r2.userId = B) (k2m : r2.matchedUserId = A) :
    r1.isMatch = r2.isMatch := by
  have hInv := reachable_ledgerInv s hs
  exact hInv.2 r1 r2 h1 h2 (by rw [k2u, k1m]) (by rw [k2m, k1u])

theorem reachable_mutual_flags_agree_witness :
    (MatchRow.mk "a" "b" true).isMatch = (MatchRow.mk "b" "a" true).isMatch :=
  reachable_mutual_flags_agree
    (runOps [.like "a" "b", .like "b" "a"] emptyLedger) "a" "b"
    (by decide) ⟨[.like "a" "b", .like "b" "a"], rfl⟩
    (MatchRow.mk "a" "b" true) (MatchRow.mk "b" "a" true)
    (by decide) (by decide) rfl rfl rfl rfl

theorem recordLike_of_existing (A B : String) (s : LedgerState) (r : MatchRow)
    (t : List MatchRow) (hA : A ≠ "") (hB : B ≠ "") (hAB : A ≠ B)
    (hsel : selectMatches s A B = r :: t) :
    recordLike A B s = .ok (r.isMatch, s) := by
  simp [recordLike, hA, hB, hAB, hsel]

theorem recordLike_insert_nonmutual (A B : String) (s : LedgerState)
    (hA : A ≠ "") (hB : B ≠ "") (hAB : A ≠ B)
    (hfwd : selectMatches s A B = []) (hrev : selectMatches s B A = []) :
    recordLike A B s =
      .ok (false, { s with matchRows := s.matchRows ++ [MatchRow.mk A B false] }) := by
  simp [recordLike, hA, hB, hAB, hfwd, hrev]

theorem recordLike_insert_mutual (A B : String) (s : LedgerState)
    (hA : A ≠ "") (hB : B ≠ "") (hAB : A ≠ B)
    (hfwd : selectMatches s A B = []) (hrev : selectMatches s B A ≠ []) :
    recordLike A B s = .ok (true, { s with matchRows :=
      (s.matchRows ++ [MatchRow.mk A B true]).map (flipReverse B A) }) := by
  cases hr : selectMatches s B A with
  | nil => exact absurd hr hrev
  | cons r t => simp [recordLike, hA, hB, hAB, hfwd, hr]

theorem selectMatches_append_self (s : LedgerState) (A B : String) (fl : Bool)
    (hfwd : selectMatches s A B = []) :
    selectMatches { s with matchRows := s.matchRows ++ [MatchRow.mk A B fl] } A B
      = [MatchRow.mk A B fl] := by
  rw [selectMatches_eq_filter] at hfwd
  show ((s.matchRows ++ [MatchRow.mk A B fl]).filter (keyPred A B)) = _
  rw [List.filter_append, hfwd]
  simp [keyPred]

theorem selectMatches_mutualState_self (s : LedgerState) (A B : String)
    (hAB : A ≠ B) (hfwd : selectMatches s A B = []) :
    selectMatches { s with matchRows :=
        (s.matchRows ++ [MatchRow.mk A B true]).map (flipReverse B A) } A B
      = [MatchRow.mk A B true] := by
  rw [selectMatches_eq_filter] at hfwd
  show ((s.matchRows ++ [MatchRow.mk A B true]).map (flipReverse B A)).filter
      (keyPred A B) = _
  rw [filter_key_map_flip, List.filter_append, hfwd]
  have hfix := flipReverse_of_ne B A (MatchRow.mk A B true) (fun hk => hAB hk.1)
  simp [keyPred, hfix]

/-- C2: recordLike is idempotent: for distinct nonempty uids A and B, in any
reachable state, two consecutive like(A,B) calls return the same mutual
result, the second call leaves the state unchanged, and exactly one row for
the ordered pair (A,B) is stored. -/
theorem recordLike_idempotent (s : LedgerState) (A B : String)
    (hs : Reachable s) (hA : A ≠ "") (hB : B ≠ "") (hAB : A ≠ B) :
    ∃ (res : Bool) (s1 : LedgerState),
      recordLike A B s = .ok (res, s1) ∧
      recordLike A B s1 = .ok (res, s1) ∧
      (selectMatches s1 A B).length = 1 := by
  cases hsel : selectMatches s A B with
  | cons r t =>
    refine ⟨r.isMatch, s, recordLike_of_existing A B s r t hA hB hAB hsel,
      recordLike_of_existing A B s r t hA hB hAB hsel, ?_⟩
    have hlen : (selectMatches s A B).length ≤ 1 := by
      rw [selectMatches_eq_filter]
      exact (reachable_ledgerInv s hs).1 A B
    rw [hsel] at hlen
    rw [hsel]
    simp only [List.length_cons] at hlen ⊢
    omega
  | nil =>
    cases hrev : selectMatches s B A with
    | nil =>
      refine ⟨false, _, recordLike_insert_nonmutual A B s hA hB hAB hsel hrev, ?_, ?_⟩
      · have h2 := selectMatches_append_self s A B false hsel
        have h3 := recordLike_of_existing A B _ (MatchRow.mk A B false) [] hA hB hAB h2
        simpa using h3
      · rw [selectMatches_append_self s A B false hsel]
        rfl
    | cons r t =>
      have hne : selectMatches s B A ≠ [] := by rw [hrev]; simp
      refine ⟨true, _, recordLike_insert_mutual A B s hA hB hAB hsel hne, ?_, ?_⟩
      · have h2 := selectMatches_mutualState_self s A B hAB hsel
        have h3 := recordLike_of_existing A B _ (MatchRow.mk A B true) [] hA hB hAB h2
        simpa using h3
      · rw [selectMatches_mutualState_self s A B hAB hsel]
        rfl

theorem recordLike_idempotent_witness :
    ∃ (res : Bool) (s1 : LedgerState),
      recordLike "a" "b" emptyLedger = .ok (res, s1) ∧
      recordLike "a" "b" s1 = .ok (res, s1) ∧
      (selectMatches s1 "a" "b").length = 1 :=
  recordLike_idempotent emptyLedger "a" "b" ⟨[], rfl⟩
    (by decide) (by decide) (by decide)

theorem isEmpty_false_of_mem {α : Type} (l : List α) (x : α) (h : x ∈ l) :
    l.isEmpty = false := by
  cases l with
  | nil => exact (List.not_mem_nil x h).elim
  | cons a t => rfl

theorem checkMatch_true_of_mem (A B : String) (s : LedgerState)
    (hA : A ≠ "") (hB : B ≠ "") (r1 r2 : MatchRow)
    (h1 : r1 ∈ s.matchRows) (k1u : r1.userId = A) (k1m : r1.matchedUserId = B)
    (f1 : r1.isMatch = true)
    (h2 : r2 ∈ s.matchRows) (k2u : r2.userId = B) (k2m : r2.matchedUserId = A)
    (f2 : r2.isMatch = true) :
    checkMatch A B s = .ok true := by
  have he1 : (s.matchRows.filter (fun r =>
      r.userId == A && r.matchedUserId == B && r.isMatch)).isEmpty = false :=
    isEmpty_false_of_mem _ r1
      (List.mem_filter.mpr ⟨h1, by simp [k1u, k1m, f1]⟩)
  have he2 : (s.matchRows.filter (fun r =>
      r.userId == B && r.matchedUserId == A && r.isMatch)).isEmpty = false :=
    isEmpty_false_of_mem _ r2
      (List.mem_filter.mpr ⟨h2, by simp [k2u, k2m, f2]⟩)
  unfold checkMatch
  rw [if_neg]
  · simp only [he1, he2]
    rfl
  · simp [hA, hB]

/-- C3: for distinct nonempty uids A and B, starting from a state with no
Like rows between A and B, like(A,B) then like(B,A) yields a state where
both directional rows exist with mutual flag true, and checkMatch(A,B)
returns true. -/
theorem like_then_reverse_like (s : LedgerState) (A B : String)
    (hA : A ≠ "") (hB : B ≠ "") (hAB : A ≠ B)
    (hnone : ∀ r ∈ s.matchRows,
      ¬((r.userId = A ∧ r.matchedUserId = B) ∨
        (r.userId = B ∧ r.matchedUserId = A))) :
    ∃ s1 s2 : LedgerState,
      recordLike A B s = .ok (false, s1) ∧
      recordLike B A s1 = .ok (true, s2) ∧
      (∃ r ∈ s2.matchRows, r.userId = A ∧ r.matchedUserId = B ∧ r.isMatch = true) ∧
      (∃ r ∈ s2.matchRows, r.userId = B ∧ r.matchedUserId = A ∧ r.isMatch = true) ∧
      checkMatch A B s2 = .ok true := by
  have hfwd : selectMatches s A B = [] := by
    rw [selectMatches_eq_filter]
    rw [List.filter_eq_nil_iff]
    intro r hr
    have hn := hnone r hr
    simp [keyPred]
    tauto
  have hrev : selectMatches s B A = [] := by
    rw [selectMatches_eq_filter]
    rw [List.filter_eq_nil_iff]
    intro r hr
    have hn := hnone r hr
    simp [keyPred]
    tauto
  refine ⟨LedgerState.mk (s.matchRows ++ [MatchRow.mk A B false]) s.passes,
    LedgerState.mk
      (((s.matchRows ++ [MatchRow.mk A B false]) ++ [MatchRow.mk B A true]).map
        (flipReverse A B)) s.passes,
    recordLike_insert_nonmutual A B s hA hB hAB hfwd hrev, ?_, ?_, ?_, ?_⟩
  · -- the second like sees the forward row as its reverse row and flips it
    apply recordLike_insert_mutual B A _ hB hA (fun h => hAB h.symm)
    · -- no (B, A) row exists yet in s1
      show ((s.matchRows ++ [MatchRow.mk A B false]).filter (keyPred B A)) = _
      rw [List.filter_append]
      rw [selectMatches_eq_filter] at hrev
      rw [hrev]
      simp [keyPred, hAB]
    · -- the (A, B) row inserted by the first like is present
      rw [selectMatches_append_self s A B false hfwd]
      simp
  · -- the flipped forward row
    refine ⟨MatchRow.mk A B true, ?_, rfl, rfl, rfl⟩
    show MatchRow.mk A B true ∈
      (((s.matchRows ++ [MatchRow.mk A B false]) ++ [MatchRow.mk B A true]).map
        (flipReverse A B))
    rw [List.mem_map]
    refine ⟨MatchRow.mk A B false, ?_, ?_⟩
    · rw [List.mem_append]
      left
      rw [List.mem_append]
      right
      exact List.mem_singleton.mpr rfl
    · rw [flipReverse_of_key A B (MatchRow.mk A B false) rfl rfl]
  · -- the inserted reverse row
    refine ⟨MatchRow.mk B A true, ?_, rfl, rfl, rfl⟩
    show MatchRow.mk B A true ∈
      (((s.matchRows ++ [MatchRow.mk A B false]) ++ [MatchRow.mk B A true]).map
        (flipReverse A B))
    rw [List.mem_map]
    refine ⟨MatchRow.mk B A true, ?_, ?_⟩
    · rw [List.mem_append]
      right
      exact List.mem_singleton.mpr rfl
    · exact flipReverse_of_ne A B (MatchRow.mk B A true)
        (fun hk => hAB hk.1.symm)
  · -- checkMatch re-verifies both rows
    have hm1 : MatchRow.mk A B true ∈
        (((s.matchRows ++ [MatchRow.mk A B false]) ++ [MatchRow.mk B A true]).map
          (flipReverse A B)) := by
      rw [List.mem_map]
      refine ⟨MatchRow.mk A B false, ?_, ?_⟩
      · rw [List.mem_append]
        left
        rw [List.mem_append]
        right
        exact List.mem_singleton.mpr rfl
      · rw [flipReverse_of_key A B (MatchRow.mk A B false) rfl rfl]
    have hm2 : MatchRow.mk B A true ∈
        (((s.matchRows ++ [MatchRow.mk A B false]) ++ [MatchRow.mk B A true]).map
          (flipReverse A B)) := by
      rw [List.mem_map]
      refine ⟨MatchRow.mk B A true, ?_, ?_⟩
      · rw [List.mem_append]
        right
        exact List.mem_singleton.mpr rfl
      · exact flipReverse_of_ne A B (MatchRow.mk B A true)
          (fun hk => hAB hk.1.symm)
    exact checkMatch_true_of_mem A B _ hA hB
      (MatchRow.mk A B true) (MatchRow.mk B A true)
      hm1 rfl rfl rfl hm2 rfl rfl rfl

theorem like_then_reverse_like_witness :
    ∃ s1 s2 : LedgerState,
      recordLike "a" "b" emptyLedger = .ok (false, s1) ∧
      recordLike "b" "a" s1 = .ok (true, s2) ∧
      (∃ r ∈ s2.matchRows,
        r.userId = "a" ∧ r.matchedUserId = "b" ∧ r.isMatch = true) ∧
      (∃ r ∈ s2.matchRows,
        r.userId = "b" ∧ r.matchedUserId = "a" ∧ r.isMatch = true) ∧
      checkMatch "a" "b" s2 = .ok true :=
  like_then_reverse_like emptyLedger "a" "b" (by decide) (by decide) (by decide)
    (by intro r hr; exact (List.not_mem_nil r hr).elim)

/-- C4: for every uid A (including the empty string, rejected by the earlier
falsy-field guard), recordLike(A,A) fails with a 400 InvalidArgument-class
response whose value does not depend on the store, and the ledger is left
completely unchanged. -/
theorem selfLike_rejected (A : String) (s : LedgerState) :
    recordLike A A s =
      .error (if A = "" then ApiError.missingFields else ApiError.selfLike) ∧
    isInvalidArgument
      (if A = "" then ApiError.missingFields else ApiError.selfLike) = true ∧
    applyOp (.like A A) s = s := by
  by_cases hA : A = ""
  · refine ⟨?_, by rw [if_pos hA]; rfl, ?_⟩
    · rw [if_pos hA]
      simp [recordLike, hA]
    · simp [applyOp, recordLike, hA]
  · refine ⟨?_, by rw [if_neg hA]; rfl, ?_⟩
    · rw [if_neg hA]
      simp [recordLike, hA]
    · simp [applyOp, recordLike, hA]

/-- A row of the `roomie_matches` table (the matching preference record).
The `lifestyles`, `interests`, `description` and `updatedAt` columns are
omitted: the candidate query never filters on them. -/
structure RoomiePref where
  uid : String
  age : Int
  gender : String
  location : String
  minBudget : Int
  maxBudget : Int
  hasCompleted : Bool
deriving DecidableEq, Repr

/-- A row of the `users` table, reduced to the join key and display fields. -/
structure UserRow where
  uid : String
  firstName : String
  lastName : String
deriving DecidableEq, Repr

/-- The tables read by GET `/renter/:uid/matches`. -/
structure MatchDb where
  roomie_matches : List RoomiePref
  users : List UserRow
  ledger : LedgerState
deriving DecidableEq, Repr

/-- The query parameters of GET `/renter/:uid/matches`.  A `none` numeric
field models an absent parameter or the literal string undefined (both
skip the filter in the source); a `some` field models a parameter that
`parseFloat`/`parseInt` turned into a number. -/
structure MatchFilters where
  location : Option String
  minBudget : Option Int
  maxBudget : Option Int
  interestedIn : Option String
  minAge : Option Int
  maxAge : Option Int
deriving DecidableEq, Repr

/-- A filters value with every query parameter absent. -/
def noFilters : MatchFilters := ⟨none, none, none, none, none, none⟩

/-- The location conjunct: `AND rm.location = ?`, appended only when the
`location` query parameter is present and not one of the sentinel values. -/
def locationClause (f : MatchFilters) (rm : RoomiePref) : Bool :=
  match f.location with
  | some l =>
    if l != "" && l != "Select Khan" && l != "Not set" && l != "undefined"
    then rm.location == l else true
  | none => true

/-- The budget conjunct: `AND rm.minBudget <= maxBudgetNum AND
rm.maxBudget >= minBudgetNum`, appended only when both budget query
parameters are present. -/
def budgetClause (f : MatchFilters) (rm : RoomiePref) : Bool :=
  match f.minBudget, f.maxBudget with
  | some lo, some hi => decide (rm.minBudget ≤ hi) && decide (lo ≤ rm.maxBudget)
  | _, _ => true

/-- The gender conjunct: `AND rm.gender = ?`, appended only when the
`interestedIn` query parameter is present and nonempty. -/
def genderClause (f : MatchFilters) (rm : RoomiePref) : Bool :=
  match f.interestedIn with
  | some g => if g != "" && g != "undefined" then rm.gender == g else true
  | none => true

/-- The age conjunct: `AND rm.age BETWEEN minAgeNum AND maxAgeNum`,
appended only when both age query parameters are present. -/
def ageClause (f : MatchFilters) (rm : RoomiePref) : Bool :=
  match f.minAge, f.maxAge with
  | some lo, some hi => decide (lo ≤ rm.age) && decide (rm.age ≤ hi)
  | _, _ => true

/-- The dynamically built WHERE clause of the candidate query
(src/routes/roomieMatches.js lines 127-188), applied to one
`roomie_matches` row.  The first four conjuncts are unconditional; each
filter conjunct is appended only under the guard used in the source. -/
def candidateWhere (uid : String) (f : MatchFilters) (db : MatchDb)
    (rm : RoomiePref) : Bool :=
  rm.uid != uid &&
  rm.hasCompleted &&
  !(db.ledger.matchRows.any (fun r =>
      r.userId == uid && r.matchedUserId == rm.uid)) &&
  !(db.ledger.passes.any (fun r =>
      r.userId == uid && r.passedUid == rm.uid)) &&
  locationClause f rm &&
  budgetClause f rm &&
  genderClause f rm &&
  ageClause f rm

/-- The rows produced by `FROM roomie_matches rm INNER JOIN users u ON
rm.uid = u.uid WHERE ...` before the ORDER BY RAND() LIMIT 50 clause. -/
def candidateRows (uid : String) (f : MatchFilters) (db : MatchDb) :
    List (RoomiePref × UserRow) :=
  (db.roomie_matches.flatMap (fun rm =>
    (db.users.filter (fun u => u.uid == rm.uid)).map (fun u => (rm, u)))).filter
    (fun p => candidateWhere uid f db p.1)

/-- GET `/renter/:uid/matches` (src/routes/roomieMatches.js lines 105-244).
The requester must have a `roomie_matches` row (existence only); the
`ORDER BY RAND() LIMIT 50` clause is modelled by a caller-supplied
reordering `shuffle` followed by `take 50`. -/
def findCandidates (uid : String) (f : MatchFilters) (db : MatchDb)
    (shuffle : List (RoomiePref × UserRow) → List (RoomiePref × UserRow)) :
    Except ApiError (List (RoomiePref × UserRow)) :=
  if (db.roomie_matches.filter (fun rm => rm.uid == uid)).isEmpty then
    .error .notFound
  else
    .ok ((shuffle (candidateRows uid f db)).take 50)

/-- C5: every preference returned by findCandidates satisfies all mandatory
exclusions, whatever the filters: it is not the requester, it is completed,
and the requester has neither liked nor passed it. -/
theorem candidates_satisfy_exclusions (uid : String) (f : MatchFilters)
    (db : MatchDb)
    (shuffle : List (RoomiePref × UserRow) → List (RoomiePref × UserRow))
    (hsh : ∀ l, List.Perm (shuffle l) l)
    (res : List (RoomiePref × UserRow))
    (hres : findCandidates uid f db shuffle = .ok res)
    (p : RoomiePref × UserRow) (hp : p ∈ res) :
    p.1.uid ≠ uid ∧ p.1.hasCompleted = true ∧
    (∀ r ∈ db.ledger.matchRows, r.userId = uid → r.matchedUserId ≠ p.1.uid) ∧
    (∀ r ∈ db.ledger.passes, r.userId = uid → r.passedUid ≠ p.1.uid) := by
  have hmem : p ∈ candidateRows uid f db := by
    unfold findCandidates at hres
    split at hres
    · exact absurd hres (by simp)
    · have hres' : res = (shuffle (candidateRows uid f db)).take 50 := by
        injection hres with h
        exact h.symm
      rw [hres'] at hp
      exact ((hsh (candidateRows uid f db)).mem_iff).mp (List.mem_of_mem_take hp)
  have hw : candidateWhere uid f db p.1 = true :=
    (List.mem_filter.mp hmem).2
  unfold candidateWhere at hw
  repeat rw [Bool.and_eq_true] at hw
  obtain ⟨⟨⟨⟨⟨⟨⟨c1, c2⟩, c3⟩, c4⟩, -⟩, -⟩, -⟩, -⟩ := hw
  refine ⟨by simpa using c1, c2, ?_, ?_⟩
  · intro r hr hu hm
    have h3 : (db.ledger.matchRows.any fun r =>
        r.userId == uid && r.matchedUserId == p.1.uid) = false := by
      simpa using c3
    rw [List.any_eq_false] at h3
    have h4 := h3 r hr
    simp [hu, hm] at h4
  · intro r hr hu hm
    have h3 : (db.ledger.passes.any fun r =>
        r.userId == uid && r.passedUid == p.1.uid) = false := by
      simpa using c4
    rw [List.any_eq_false] at h3
    have h4 := h3 r hr
    simp [hu, hm] at h4

theorem candidates_satisfy_exclusions_witness :
    (RoomiePref.mk "b" 30 "male" "PP" 200 400 true).uid ≠ "a" ∧
    (RoomiePref.mk "b" 30 "male" "PP" 200 400 true).hasCompleted = true ∧
    (∀ r ∈ emptyLedger.matchRows, r.userId = "a" →
      r.matchedUserId ≠ (RoomiePref.mk "b" 30 "male" "PP" 200 400 true).uid) ∧
    (∀ r ∈ emptyLedger.passes, r.userId = "a" →
      r.passedUid ≠ (RoomiePref.mk "b" 30 "male" "PP" 200 400 true).uid) :=
  candidates_satisfy_exclusions "a" noFilters
    (MatchDb.mk [RoomiePref.mk "a" 25 "female" "PP" 100 500 true,
                 RoomiePref.mk "b" 30 "male" "PP" 200 400 true]
                [UserRow.mk "b" "Bee" "Bee"] emptyLedger)
    id (fun l => List.Perm.refl l) _ rfl
    (RoomiePref.mk "b" 30 "male" "PP" 200 400 true, UserRow.mk "b" "Bee" "Bee")
    (by decide)

/-- C6: when both budget query parameters are present, and every other
conjunct of the WHERE clause holds (expressed as the same clause with the
budget filter absent), a candidate is retained iff its budget range
intersects the requester range: candidate.minBudget <= requester.maxBudget
and candidate.maxBudget >= requester.minBudget. -/
theorem budget_filter_interval_overlap (uid : String) (f : MatchFilters)
    (db : MatchDb) (lo hi : Int) (hlo : f.minBudget = some lo)
    (hhi : f.maxBudget = some hi) (rm : RoomiePref)
    (hothers : candidateWhere uid
      { f with minBudget := none, maxBudget := none } db rm = true) :
    (candidateWhere uid f db rm = true ↔
      (rm.minBudget ≤ hi ∧ lo ≤ rm.maxBudget)) := by
  unfold candidateWhere at hothers
  repeat rw [Bool.and_eq_true] at hothers
  obtain ⟨⟨⟨⟨⟨⟨⟨c1, c2⟩, c3⟩, c4⟩, c5⟩, -⟩, c7⟩, c8⟩ := hothers
  have hbudget : budgetClause f rm =
      (decide (rm.minBudget ≤ hi) && decide (lo ≤ rm.maxBudget)) := by
    unfold budgetClause
    rw [hlo, hhi]
  constructor
  · intro h
    unfold candidateWhere at h
    repeat rw [Bool.and_eq_true] at h
    have hb := h.1.1.2
    rw [hbudget, Bool.and_eq_true] at hb
    exact ⟨of_decide_eq_true hb.1, of_decide_eq_true hb.2⟩
  · intro hb
    unfold candidateWhere
    repeat rw [Bool.and_eq_true]
    refine ⟨⟨⟨⟨⟨⟨⟨c1, c2⟩, c3⟩, c4⟩, c5⟩, ?_⟩, c7⟩, c8⟩
    rw [hbudget, Bool.and_eq_true]
    exact ⟨decide_eq_true hb.1, decide_eq_true hb.2⟩

theorem budget_filter_interval_overlap_witness :
    ((candidateWhere "a"
        (MatchFilters.mk none (some 100) (some 500) none none none)
        (MatchDb.mk [] [] emptyLedger)
        (RoomiePref.mk "b" 30 "male" "PP" 600 800 true) = true ↔
      ((600 : Int) ≤ 500 ∧ (100 : Int) ≤ 800)) ∧
     candidateWhere "a"
        (MatchFilters.mk none (some 100) (some 500) none none none)
        (MatchDb.mk [] [] emptyLedger)
        (RoomiePref.mk "b" 30 "male" "PP" 600 800 true) = false) ∧
    ((candidateWhere "a"
        (MatchFilters.mk none (some 100) (some 500) none none none)
        (MatchDb.mk [] [] emptyLedger)
        (RoomiePref.mk "b" 30 "male" "PP" 400 900 true) = true ↔
      ((400 : Int) ≤ 500 ∧ (100 : Int) ≤ 900)) ∧
     candidateWhere "a"
        (MatchFilters.mk none (some 100) (some 500) none none none)
        (MatchDb.mk [] [] emptyLedger)
        (RoomiePref.mk "b" 30 "male" "PP" 400 900 true) = true) :=
  ⟨⟨budget_filter_interval_overlap "a"
      (MatchFilters.mk none (some 100) (some 500) none none none)
      (MatchDb.mk [] [] emptyLedger) 100 500 rfl rfl
      (RoomiePref.mk "b" 30 "male" "PP" 600 800 true) (by decide),
    by decide⟩,
   ⟨budget_filter_interval_overlap "a"
      (MatchFilters.mk none (some 100) (some 500) none none none)
      (MatchDb.mk [] [] emptyLedger) 100 500 rfl rfl
      (RoomiePref.mk "b" 30 "male" "PP" 400 900 true) (by decide),
    by decide⟩⟩

/-- C7 counterexample: a requester whose preference record exists with
hasCompleted = 0 does NOT get a NotFound failure; the candidates query
runs and succeeds.  The claim says this case must fail NotFound. -/
theorem notFound_despite_incomplete_pref_cx :
    (RoomiePref.mk "a" 25 "female" "PP" 100 500 false).uid = "a" ∧
    (RoomiePref.mk "a" 25 "female" "PP" 100 500 false).hasCompleted = false ∧
    findCandidates "a" noFilters
      (MatchDb.mk [RoomiePref.mk "a" 25 "female" "PP" 100 500 false] []
        emptyLedger) id = .ok [] := by
  refine ⟨rfl, rfl, ?_⟩
  rfl

/-- C7 amended: findCandidates fails NotFound iff the requester has no
roomie_matches row at all; the row's hasCompleted value is never consulted
for the requester. -/
theorem notFound_iff_no_pref_row (uid : String) (f : MatchFilters)
    (db : MatchDb)
    (shuffle : List (RoomiePref × UserRow) → List (RoomiePref × UserRow)) :
    (findCandidates uid f db shuffle = .error .notFound ↔
      ∀ rm ∈ db.roomie_matches, rm.uid ≠ uid) := by
  unfold findCandidates
  cases hsel : db.roomie_matches.filter (fun rm => rm.uid == uid) with
  | nil =>
    simp only [hsel, List.isEmpty_nil, if_pos]
    constructor
    · intro _ rm hrm heq
      have hmem : rm ∈ db.roomie_matches.filter (fun rm => rm.uid == uid) :=
        List.mem_filter.mpr ⟨hrm, by simp [heq]⟩
      rw [hsel] at hmem
      exact List.not_mem_nil rm hmem
    · intro _
      trivial
  | cons r t =>
    simp only [hsel, List.isEmpty_cons, if_neg]
    constructor
    · intro h
      exact absurd h (by simp)
    · intro h
      have hmem : r ∈ db.roomie_matches.filter (fun rm => rm.uid == uid) := by
        rw [hsel]
        exact List.mem_cons_self r t
      have := List.mem_filter.mp hmem
      exact absurd (by simpa using this.2) (h r this.1)

/-- The authorizeUser middleware (src/middleware/authMiddleware.js lines
63-69): rejects with 403 when the authenticated uid differs from the `:uid`
path parameter.  Only routes with a `:uid` path parameter mount it. -/
def authorizeUser (userUid paramsUid : String) : Except ApiError Unit :=
  if userUid != paramsUid then .error .forbidden else .ok ()

/-- Full POST `/matches/like` pipeline.  The route is mounted with only the
authenticate middleware (src/routes/matches.js line 8); the handler reads
likerUid and likedUid from the body and never consults the authenticated
caller uid, so `callerUid` is unused. -/
def likeRoute (callerUid likerUid likedUid : String) (s : LedgerState) :
    Except ApiError (Bool × LedgerState) :=
  recordLike likerUid likedUid s

/-- Full POST `/matches/pass` pipeline (line 116): authenticate only,
body-based uids, caller uid unused. -/
def passRoute (callerUid userId passedUid : String) (s : LedgerState) :
    Except ApiError LedgerState :=
  recordPass userId passedUid s

/-- Full DELETE `/matches/unmatch` pipeline (line 256): authenticate only,
body-based uids, caller uid unused. -/
def unmatchRoute (callerUid userId matchedUserId : String) (s : LedgerState) :
    Except ApiError LedgerState :=
  unmatch userId matchedUserId s

/-- Full DELETE `/matches/reset` pipeline (line 290): authenticate only,
body-based uid, caller uid unused. -/
def resetRoute (callerUid userId : String) (s : LedgerState) :
    Except ApiError (Nat × Nat × LedgerState) :=
  resetAll userId s

/-- C8 counterexample: an authenticated caller whose uid differs from the
acting likerUid is NOT rejected with Forbidden: the like succeeds and a
row is written on behalf of the other user. -/
theorem like_ignores_caller_cx :
    ("mallory" : String) ≠ "alice" ∧
    likeRoute "mallory" "alice" "bob" emptyLedger =
      .ok (false, LedgerState.mk [MatchRow.mk "alice" "bob" false] []) :=
  ⟨by decide, rfl⟩

/-- C8 amended: only routes that carry the acting uid as a `:uid` path
parameter enforce ownership, via authorizeUser, which fails 403 whenever
the caller uid differs from the parameter; the body-based operations like,
pass, unmatch and resetMatches perform no ownership check at all — their
outcome is entirely independent of the caller's uid. -/
theorem forbidden_only_via_authorizeUser (callerUid paramsUid : String)
    (h : callerUid ≠ paramsUid) :
    authorizeUser callerUid paramsUid = .error .forbidden ∧
    (∀ (c2 liker liked : String) (s : LedgerState),
      likeRoute callerUid liker liked s = likeRoute c2 liker liked s) ∧
    (∀ (c2 u p : String) (s : LedgerState),
      passRoute callerUid u p s = passRoute c2 u p s) ∧
    (∀ (c2 u m : String) (s : LedgerState),
      unmatchRoute callerUid u m s = unmatchRoute c2 u m s) ∧
    (∀ (c2 u : String) (s : LedgerState),
      resetRoute callerUid u s = resetRoute c2 u s) := by
  refine ⟨?_, fun _ _ _ _ => rfl, fun _ _ _ _ => rfl,
    fun _ _ _ _ => rfl, fun _ _ _ => rfl⟩
  unfold authorizeUser
  rw [if_pos]
  simpa using h

theorem forbidden_only_via_authorizeUser_witness :
    authorizeUser "mallory" "alice" = .error .forbidden ∧
    (∀ (c2 liker liked : String) (s : LedgerState),
      likeRoute "mallory" liker liked s = likeRoute c2 liker liked s) ∧
    (∀ (c2 u p : String) (s : LedgerState),
      passRoute "mallory" u p s = passRoute c2 u p s) ∧
    (∀ (c2 u m : String) (s : LedgerState),
      unmatchRoute "mallory" u m s = unmatchRoute c2 u m s) ∧
    (∀ (c2 u : String) (s : LedgerState),
      resetRoute "mallory" u s = resetRoute c2 u s) :=
  forbidden_only_via_authorizeUser "mallory" "alice" (by decide)

/-- The per-request state of one in-flight like handler, broken at the
await boundaries of its four SQL statements.  pc 0: before the SELECT of
the forward row; 1: before the SELECT of the reverse row; 2: before the
INSERT; 3: before the conditional UPDATE; 4: responded. -/
structure LikeThread where
  likerUid : String
  likedUid : String
  pc : Nat
  isMatch : Bool
deriving DecidableEq, Repr

/-- One step of a like handler against the shared database.  Each SQL
statement is individually atomic (autocommit on the pooled connection); no
transaction spans them, exactly as in src/routes/matches.js lines 23-61. -/
def likeThreadStep (t : LikeThread) (s : LedgerState) :
    LikeThread × LedgerState :=
  match t.pc with
  | 0 => if (selectMatches s t.likerUid t.likedUid).isEmpty
         then ({ t with pc := 1 }, s)
         else ({ t with pc := 4 }, s)
  | 1 =>
    ({ t with pc := 2, isMatch := !(selectMatches s t.likedUid t.likerUid).isEmpty }, s)
  | 2 => ({ t with pc := 3 },
          { s with matchRows :=
              s.matchRows ++ [MatchRow.mk t.likerUid t.likedUid t.isMatch] })
  | 3 => if t.isMatch
         then ({ t with pc := 4 },
               { s with matchRows :=
                   s.matchRows.map (flipReverse t.likedUid t.likerUid) })
         else ({ t with pc := 4 }, s)
  | _ => (t, s)

/-- Run one like handler alone for n steps. -/
def runThread (n : Nat) (t : LikeThread) (s : LedgerState) :
    LikeThread × LedgerState :=
  match n with
  | 0 => (t, s)
  | Nat.succ m =>
    let p := likeThreadStep t s
    runThread m p.1 p.2

/-- Run two concurrent like handlers under a schedule: a true entry steps
the first thread, a false entry the second. -/
def runSchedule (sched : List Bool) (t1 t2 : LikeThread) (s : LedgerState) :
    LikeThread × LikeThread × LedgerState :=
  match sched with
  | [] => (t1, t2, s)
  | true :: rest =>
    let p := likeThreadStep t1 s
    runSchedule rest p.1 t2 p.2
  | false :: rest =>
    let p := likeThreadStep t2 s
    runSchedule rest t1 p.1 p.2

/-- Sanity: a like handler run alone to completion has exactly the database
effect of recordLike, tying the thread model to the sequential embedding. -/
theorem runThread_like (a b : String) (s : LedgerState)
    (hA : a ≠ "") (hB : b ≠ "") (hab : a ≠ b) :
    (runThread 4 (LikeThread.mk a b 0 false) s).2 = applyOp (.like a b) s := by
  cases hsel : selectMatches s a b with
  | cons r t =>
    have h1 : (selectMatches s a b).isEmpty = false := by rw [hsel]; rfl
    simp [runThread, likeThreadStep, h1, applyOp,
      recordLike_of_existing a b s r t hA hB hab hsel]
  | nil =>
    have h1 : (selectMatches s a b).isEmpty = true := by rw [hsel]; rfl
    cases hrev : selectMatches s b a with
    | nil =>
      have h2 : (selectMatches s b a).isEmpty = true := by rw [hrev]; rfl
      simp [runThread, likeThreadStep, h1, h2, applyOp,
        recordLike_insert_nonmutual a b s hA hB hab hsel hrev]
    | cons r t =>
      have hne : selectMatches s b a ≠ [] := by rw [hrev]; simp
      have h2 : (selectMatches s b a).isEmpty = false := by rw [hrev]; rfl
      simp [runThread, likeThreadStep, h1, h2, applyOp,
        recordLike_insert_mutual a b s hA hB hab hsel hne]

/-- C9: without a transaction around the four statements, interleaving
recordLike(a,b) and recordLike(b,a) so that both reverse-row SELECTs run
before either INSERT completes both handlers yet leaves the ledger with
rows (a→b, isMatch=0) and (b→a, isMatch=0): no mutual match is ever
recorded, contradicting the claimed atomic convergence to a pair with both
flags true. -/
theorem concurrent_like_lost_update :
    runSchedule [true, false, true, false, true, false, true, false]
      (LikeThread.mk "a" "b" 0 false) (LikeThread.mk "b" "a" 0 false)
      emptyLedger =
      (LikeThread.mk "a" "b" 4 false, LikeThread.mk "b" "a" 4 false,
        LedgerState.mk
          [MatchRow.mk "a" "b" false, MatchRow.mk "b" "a" false] []) ∧
    checkMatch "a" "b"
      (LedgerState.mk
        [MatchRow.mk "a" "b" false, MatchRow.mk "b" "a" false] []) =
      .ok false :=
  ⟨rfl, rfl⟩

/-- C10: recordPass performs no self-reference validation: for any nonempty
uid A, pass(A,A) succeeds, afterwards a Pass row with
userUid = passedUid = A is stored, a repeated call is a no-op, while
recordLike(A,A) rejects with the 400 self-like error. -/
theorem pass_allows_self (A : String) (hA : A ≠ "") (s : LedgerState) :
    ∃ s1 : LedgerState, recordPass A A s = .ok s1 ∧
      PassRow.mk A A ∈ s1.passes ∧
      recordPass A A s1 = .ok s1 ∧
      recordLike A A s = .error .selfLike ∧
      isInvalidArgument .selfLike = true := by
  cases hsel : s.passes.filter (fun r => r.userId == A && r.passedUid == A) with
  | cons r t =>
    have hrmem := List.mem_filter.mp
      (show r ∈ s.passes.filter (fun r => r.userId == A && r.passedUid == A) by
        rw [hsel]; exact List.mem_cons_self r t)
    have hreq : r = PassRow.mk A A := by
      have hru : r.userId = A ∧ r.passedUid = A := by simpa using hrmem.2
      cases r
      simp_all
    refine ⟨s, ?_, ?_, ?_, ?_, rfl⟩
    · simp [recordPass, hA, hsel]
    · rw [← hreq]; exact hrmem.1
    · simp [recordPass, hA, hsel]
    · simp [recordLike, hA]
  | nil =>
    refine ⟨{ s with passes := s.passes ++ [PassRow.mk A A] }, ?_, ?_, ?_, ?_, rfl⟩
    · simp [recordPass, hA, hsel]
    · simp
    · have h2 : ({ s with passes := s.passes ++ [PassRow.mk A A] }).passes.filter
          (fun r => r.userId == A && r.passedUid == A) = [PassRow.mk A A] := by
        show (s.passes ++ [PassRow.mk A A]).filter
          (fun r => r.userId == A && r.passedUid == A) = _
        rw [List.filter_append, hsel]
        simp
      simp [recordPass, hA, h2]
    · simp [recordLike, hA]

theorem pass_allows_self_witness :
    ∃ s1 : LedgerState, recordPass "a" "a" emptyLedger = .ok s1 ∧
      PassRow.mk "a" "a" ∈ s1.passes ∧
      recordPass "a" "a" s1 = .ok s1 ∧
      recordLike "a" "a" emptyLedger = .error .selfLike ∧
      isInvalidArgument .selfLike = true :=
  pass_allows_self "a" (by decide) emptyLedger
